import Mathlib

/-!
Shallow embedding of the DruxtMenu retrieval-and-normalization core
(src/src/menu.js of the druxt-menu repository).

The Resource Client (DruxtClient), the query builder and the raw transport
are external collaborators; they are modelled as explicit parameters:
a `Backend` record bundling the configured endpoint, the mutable resource
index (passed in and returned explicitly), the paginated collection fetch
(one typed variant per raw record shape, since the two collection-backed
strategies receive differently shaped raw records), and the raw transport
`get`.  JavaScript in-place mutation (of the caller's options object and of
the client's resource index) is modelled by explicit state passing: the
mutated value is part of the result.
-/

namespace DruxtMenu

/-! ## JavaScript string primitives used by the source -/

/-- JavaScript `String.prototype.lastIndexOf` for a one-character needle:
the greatest index at which `c` occurs in `s`, or `-1` when it does not occur. -/
def jsLastIndexOf (s : String) (c : Char) : Int :=
  match s.toList.reverse.findIdx? (fun x => x = c) with
  | some i => (s.toList.length : Int) - 1 - (i : Int)
  | none => -1

/-- JavaScript `String.prototype.slice` with begin and end arguments; a
negative argument counts from the end of the string, and indices are clamped
to `[0, length]`. -/
def jsSlice (s : String) (b e : Int) : String :=
  let len : Int := s.toList.length
  let clamp : Int → Nat := fun i =>
    if i < 0 then (max (len + i) 0).toNat else (min i len).toNat
  String.mk ((s.toList.take (clamp e)).drop (clamp b))

/-! ## Query builder (DrupalJsonApiParams), modelled as a list of operations -/

/-- One fluent operation on a `DrupalJsonApiParams` query object. -/
inductive QueryOp where
  | filter (field value : String)
  | fields (resourceType : String) (fieldList : List String)
deriving Repr, DecidableEq

/-! ## Raw record shapes per backend strategy -/

/-- The `link` field of a raw `menu_link_content` record. -/
structure MLCLink where
  uri : String
deriving Repr, DecidableEq

/-- Attributes of a raw `menu_link_content--menu_link_content` record
(the fields the query restricts the response to). -/
structure MLCAttributes where
  bundle : String
  description : Option String
  link : MLCLink
  menu_name : String
  parent : Option String
  title : String
  weight : Int
deriving Repr, DecidableEq

/-- A raw `menu_link_content` record; the default strategy returns these
unchanged as normalized entities. -/
structure MLCEntity where
  id : String
  attributes : MLCAttributes
deriving Repr, DecidableEq

/-- One page object `{ data: RawRecord[] }` returned by `getCollectionAll`
for the `menu_link_content` resource. -/
structure MLCPage where
  data : List MLCEntity
deriving Repr, DecidableEq

/-- Attributes of a raw record of the `menu_items--<menuName>` resource
(JSON:API Menu Items module). -/
structure RawMenuItemAttributes where
  description : Option String
  url : String
  parent : String
  title : String
  weight : Int
deriving Repr, DecidableEq

/-- A raw record of the `menu_items--<menuName>` resource. -/
structure RawMenuItem where
  id : String
  attributes : RawMenuItemAttributes
deriving Repr, DecidableEq

/-- One page object `{ data: RawRecord[] }` returned by `getCollectionAll`
for the `menu_items` resource. -/
structure MenuItemsPage where
  data : List RawMenuItem
deriving Repr, DecidableEq

/-- The first element of a link entry's `drupal-menu` array in a linkset
document (Decoupled Menus module). -/
structure DrupalMenuMeta where
  hierarchy : String
deriving Repr, DecidableEq

/-- One link entry of a linkset document's `item` array. -/
structure LinkEntry where
  href : String
  title : String
  drupal_menu : List DrupalMenuMeta
deriving Repr, DecidableEq

/-- One element of the `linkset` array. -/
structure LinkSetGroup where
  item : List LinkEntry
deriving Repr, DecidableEq

/-- The body of a linkset response; `linkset` is `none` when the key is
absent from the JSON object. -/
structure LinksetDocument where
  linkset : Option (List LinkSetGroup)
deriving Repr, DecidableEq

/-- A raw transport (axios) response; `data` is `none` when the response
carries no data object. -/
structure AxiosResponse where
  data : Option LinksetDocument
deriving Repr, DecidableEq

/-! ## Normalized entity shapes -/

/-- The `link` field of a normalized entity. -/
structure EntityLink where
  uri : String
deriving Repr, DecidableEq

/-- Attributes of an entity normalized by the `jsonapi_menu_items` strategy. -/
structure JsonApiEntityAttributes where
  description : Option String
  link : EntityLink
  menu_name : String
  parent : Option String
  title : String
  weight : Int
deriving Repr, DecidableEq

/-- An entity normalized by the `jsonapi_menu_items` strategy; `resource`
retains the original raw record. -/
structure JsonApiEntity where
  id : String
  attributes : JsonApiEntityAttributes
  resource : RawMenuItem
deriving Repr, DecidableEq

/-- Attributes of an entity normalized by the `decoupled_menus` strategy;
its `weight` is the raw hierarchy string. -/
structure DecoupledEntityAttributes where
  description : Option String
  link : EntityLink
  menu_name : String
  parent : Option String
  title : String
  weight : String
deriving Repr, DecidableEq

/-- An entity normalized by the `decoupled_menus` strategy. -/
structure DecoupledEntity where
  id : String
  attributes : DecoupledEntityAttributes
deriving Repr, DecidableEq

/-! ## The external Resource Client (DruxtClient), as a parameter record -/

/-- The surface of the Resource Client consumed by the core.  The resource
index maps a resource-type string to the `href` of its location entry; it is
taken as already initialized (`getIndex()` is idempotent and the strategy
awaits it before writing). -/
structure Backend where
  endpoint : String
  index : String → Option String
  getCollectionAllMLC : String → List QueryOp → List MLCPage
  getCollectionAllMenuItems : String → List QueryOp → List MenuItemsPage
  axiosGet : String → AxiosResponse

/-! ## Configuration and construction -/

/-- The caller-supplied `options.menu` object; `type` is `none` when the key
is absent, and `jsonApiMenuItems` models the truthiness of the legacy flag. -/
structure MenuOptions where
  type : Option String
  jsonApiMenuItems : Bool
deriving Repr, DecidableEq

/-- The caller-supplied options object; `menu` is `none` when the key is
absent. -/
structure Options where
  menu : Option MenuOptions
deriving Repr, DecidableEq

/-- The merged `this.options.menu`; `type` is `none` when the caller passed
a menu object without a `type` key. -/
structure ResolvedMenuOptions where
  type : Option String
deriving Repr, DecidableEq

/-- The merged `this.options` of a constructed instance. -/
structure Config where
  menu : ResolvedMenuOptions
deriving Repr, DecidableEq

/-- The error thrown synchronously by the constructor. -/
inductive ConfigurationError where
  | missingBaseUrl
deriving Repr, DecidableEq

/-- The DruxtMenu constructor.  `baseUrl` is `none` when the argument is
missing; the JavaScript falsiness test `!baseUrl` is true exactly for a
missing or empty string.  The in-place mutation of the caller's options
object (`options.menu.type = 'jsonapi_menu_items'` when the legacy flag is
truthy) is modelled by returning the post-construction options object
alongside the merged configuration.  The error branch performs no backend
activity: it does not consult any `Backend` at all. -/
def construct (baseUrl : Option String) (options : Options) :
    Except ConfigurationError (Options × Config) :=
  if baseUrl = none ∨ baseUrl = some "" then
    Except.error ConfigurationError.missingBaseUrl
  else
    let options' :=
      match options.menu with
      | some m =>
          if m.jsonApiMenuItems then
            { options with menu := some { m with type := some "jsonapi_menu_items" } }
          else options
      | none => options
    let menu : ResolvedMenuOptions :=
      match options'.menu with
      | some m => { type := m.type }
      | none => { type := some "menu_link_content" }
    Except.ok (options', { menu := menu })

/-! ## Strategy: menu_link_content -/

/-- The resource type queried by the default strategy. -/
def mlcResource : String := "menu_link_content--menu_link_content"

/-- The field restriction of the default strategy's query. -/
def mlcFields : List String :=
  ["bundle", "description", "link", "menu_name", "parent", "title", "weight"]

/-- The query built by `getMenuLinkContent`: filter `enabled = '1'` (the
serialized boolean true), filter `menu_name = <requested name>`, and the
field restriction for the resource. -/
def mlcQuery (menuName : String) : List QueryOp :=
  [QueryOp.filter "enabled" "1",
   QueryOp.filter "menu_name" menuName,
   QueryOp.fields mlcResource mlcFields]

/-- Result shape `{ entities }` of the default strategy. -/
structure MLCResult where
  entities : List MLCEntity
deriving Repr, DecidableEq

/-- `getMenuLinkContent`: fetches every page for the filtered, field-limited
query and flattens each page's records, unchanged, into one list in backend
order. -/
def getMenuLinkContent (getCollectionAll : String → List QueryOp → List MLCPage)
    (menuName : String) : MLCResult :=
  let query := mlcQuery menuName
  let collections := getCollectionAll mlcResource query
  { entities := (collections.map (fun c => c.data)).flatten }

/-! ## Strategy: jsonapi_menu_items -/

/-- The query built by `getJsonApiMenuItems`: filter `enabled = '1'` and
filter `menu_name = <requested name>`. -/
def jsonApiQuery (menuName : String) : List QueryOp :=
  [QueryOp.filter "enabled" "1", QueryOp.filter "menu_name" menuName]

/-- The per-record normalization of `getJsonApiMenuItems`: the raw record's
`url` gets the `internal:` scheme, `menu_name` is the requested name, a
zero-length raw `parent` becomes `null`, and the raw record is retained
under `resource`. -/
def normalizeMenuItem (menuName : String) (raw : RawMenuItem) : JsonApiEntity :=
  { id := raw.id
    attributes :=
      { description := raw.attributes.description
        link := { uri := "internal:" ++ raw.attributes.url }
        menu_name := menuName
        parent :=
          if raw.attributes.parent.length ≠ 0 then some raw.attributes.parent else none
        title := raw.attributes.title
        weight := raw.attributes.weight }
    resource := raw }

/-- Result of the `jsonapi_menu_items` strategy: the entities together with
the resource index as left after the strategy's write to it. -/
structure JsonApiResult where
  index : String → Option String
  entities : List JsonApiEntity

/-- `getJsonApiMenuItems`: writes the synthetic resource-location entry for
`menu_items--<menuName>` into the resource index (the JavaScript assignment
`this.druxt.index[resource] = { href: ... }`, modelled as a pointwise
function update), then fetches every page for the filtered query and
normalizes each raw record. -/
def getJsonApiMenuItems (b : Backend) (menuName : String) : JsonApiResult :=
  let resource := "menu_items--" ++ menuName
  let index' : String → Option String := fun k =>
    if k = resource then some (b.endpoint ++ "/menu_items/" ++ menuName) else b.index k
  let query := jsonApiQuery menuName
  let collections := b.getCollectionAllMenuItems resource query
  { index := index'
    entities := (collections.map (fun c => c.data)).flatten.map (normalizeMenuItem menuName) }

/-! ## Strategy: decoupled_menus -/

/-- Result shape `{ entities }` of the `decoupled_menus` strategy. -/
structure DecoupledResult where
  entities : List DecoupledEntity
deriving Repr, DecidableEq

/-- `getDecoupledMenu`: fetches the linkset document at
`/system/menu/<menuName>/linkset` through the raw transport and normalizes
every link entry of every linkset element.  `(response.data || {}).linkset
|| []` is the defaulting chain of the source; `link['drupal-menu'][0]` is
modelled by `headD` (the source indexes the array unconditionally, trusting
the backend shape).  The local `parent` is
`hierarchy.slice(0, hierarchy.lastIndexOf('.')) || null`. -/
def getDecoupledMenu (axiosGet : String → AxiosResponse) (menuName : String) :
    DecoupledResult :=
  let response := axiosGet ("/system/menu/" ++ menuName ++ "/linkset")
  let linkset : List LinkSetGroup :=
    match response.data with
    | some d => d.linkset.getD []
    | none => []
  let entities :=
    (linkset.map (fun links => links.item)).flatten.map (fun link =>
      let hierarchy := (link.drupal_menu.headD { hierarchy := "" }).hierarchy
      let sliced := jsSlice hierarchy 0 (jsLastIndexOf hierarchy '.')
      let parent : Option String := if sliced = "" then none else some sliced
      { id := menuName ++ hierarchy
        attributes :=
          { description := none
            link := { uri := "internal:" ++ link.href }
            menu_name := menuName
            parent :=
              match parent with
              | some p => some (menuName ++ p)
              | none => none
            title := link.title
            weight := hierarchy } })
  { entities := entities }

/-! ## The facade: get(menuName) dispatch -/

/-- The heterogeneous result of `get`, one variant per strategy (the raw
record shapes differ, so the normalized shapes do too). -/
inductive GetResult where
  | mlc (entities : List MLCEntity)
  | jsonapi (res : JsonApiResult)
  | decoupled (entities : List DecoupledEntity)

/-- `get(menuName)`: dispatches on the configured `menu.type`; any value
other than the two recognized alternates (including an absent `type`) takes
the `switch` default, `getMenuLinkContent`. -/
def get (cfg : Config) (b : Backend) (menuName : String) : GetResult :=
  if cfg.menu.type = some "decoupled_menus" then
    GetResult.decoupled (getDecoupledMenu b.axiosGet menuName).entities
  else if cfg.menu.type = some "jsonapi_menu_items" then
    GetResult.jsonapi (getJsonApiMenuItems b menuName)
  else
    GetResult.mlc (getMenuLinkContent b.getCollectionAllMLC menuName).entities

/-- The `attributes.menu_name` of every entity of a `get` result, in order,
uniformly across the three strategies. -/
def GetResult.menuNames : GetResult → List String
  | GetResult.mlc entities => entities.map (fun e => e.attributes.menu_name)
  | GetResult.jsonapi r => r.entities.map (fun e => e.attributes.menu_name)
  | GetResult.decoupled entities => entities.map (fun e => e.attributes.menu_name)

/-! ## Concrete example data, used by witnesses and counterexamples -/

/-- A raw `menu_link_content` record of the `main` menu. -/
def exampleMLCRecord : MLCEntity :=
  { id := "a"
    attributes :=
      { bundle := "menu_link_content"
        description := none
        link := { uri := "internal:/home" }
        menu_name := "main"
        parent := none
        title := "Home"
        weight := 0 } }

/-- A resource index that already holds an entry for `menu_items--main`. -/
def examplePreIndex : String → Option String := fun k =>
  if k = "menu_items--main" then some "https://old.example/existing" else none

/-- A concrete Resource Client: one `menu_link_content` page with one
record, an empty `menu_items` collection, no linkset data, and a
pre-populated index entry for `menu_items--main`. -/
def exampleBackend : Backend :=
  { endpoint := "/jsonapi"
    index := examplePreIndex
    getCollectionAllMLC := fun _ _ => [{ data := [exampleMLCRecord] }]
    getCollectionAllMenuItems := fun _ _ => []
    axiosGet := fun _ => { data := none } }

/-- A link entry whose hierarchy is the dot-free two-character string `10`
(a root item in position ten). -/
def hierarchyTenEntry : LinkEntry :=
  { href := "/ten", title := "Ten", drupal_menu := [{ hierarchy := "10" }] }

/-- A linkset response carrying only `hierarchyTenEntry`. -/
def hierarchyTenResponse : AxiosResponse :=
  { data := some { linkset := some [{ item := [hierarchyTenEntry] }] } }

end DruxtMenu

namespace DruxtMenu

/-! ## Helper lemmas -/

/-- A string of length zero is the empty string. -/
theorem eq_empty_of_length_eq_zero {s : String} (h : s.length = 0) : s = "" := by
  cases s with
  | mk data =>
    cases data with
    | nil => rfl
    | cons c cs => simp [String.length] at h

/-- Every entity normalized by the `decoupled_menus` strategy carries the
requested menu name. -/
theorem menu_name_of_getDecoupledMenu (axiosGet : String → AxiosResponse)
    (menuName : String) :
    ∀ e ∈ (getDecoupledMenu axiosGet menuName).entities,
      e.attributes.menu_name = menuName := by
  intro e he
  simp only [getDecoupledMenu, List.mem_map] at he
  obtain ⟨link, -, rfl⟩ := he
  rfl

/-- Every entity normalized by the `jsonapi_menu_items` strategy carries the
requested menu name. -/
theorem menu_name_of_getJsonApiMenuItems (b : Backend) (menuName : String) :
    ∀ e ∈ (getJsonApiMenuItems b menuName).entities,
      e.attributes.menu_name = menuName := by
  intro e he
  simp only [getJsonApiMenuItems, List.mem_map] at he
  obtain ⟨raw, -, rfl⟩ := he
  rfl

/-- The default strategy returns raw records unchanged, so its entities
carry the requested menu name exactly when the Resource Client honors the
`menu_name` filter of the query built for the requested menu. -/
theorem menu_name_of_getMenuLinkContent (c : String → List QueryOp → List MLCPage)
    (menuName : String)
    (hclient : ∀ page ∈ c mlcResource (mlcQuery menuName),
        ∀ e ∈ page.data, e.attributes.menu_name = menuName) :
    ∀ e ∈ (getMenuLinkContent c menuName).entities,
      e.attributes.menu_name = menuName := by
  intro e he
  simp only [getMenuLinkContent, List.mem_flatten, List.mem_map] at he
  obtain ⟨l, ⟨page, hpage, rfl⟩, hel⟩ := he
  exact hclient page hpage e hel

/-! ## Claim theorems -/

/-- C1: the claim states that a hierarchy string with no `.` separator
yields a `null` parent.  At the concrete linkset entry with the dot-free
hierarchy `10`, the code instead produces the entity `main10` with parent
`main1`: `lastIndexOf` returns `-1`, which `slice` treats as an end index
counting from the end of the string, truncating one character instead of
producing the empty string. -/
theorem c1_dot_free_hierarchy_gets_truncated_parent :
    (getDecoupledMenu (fun _ => hierarchyTenResponse) "main").entities.map
        (fun e => (e.id, e.attributes.parent)) = [("main10", some "main1")]
    ∧ some "main1" ≠ (none : Option String) := by
  exact ⟨by decide, by decide⟩

/-- C2 counterexample: with an entry for `menu_items--main` already present
in the resource index, the strategy still writes the synthetic entry for
that resource type, so the existing entry is not left unchanged. -/
theorem c2_existing_entry_not_left_unchanged :
    examplePreIndex "menu_items--main" = some "https://old.example/existing"
    ∧ (getJsonApiMenuItems exampleBackend "main").index "menu_items--main"
        = some "/jsonapi/menu_items/main"
    ∧ (getJsonApiMenuItems exampleBackend "main").index "menu_items--main"
        ≠ examplePreIndex "menu_items--main" := by
  exact ⟨by decide, by decide, by decide⟩

/-- C2 (amended): before querying, the `jsonapi_menu_items` strategy always
writes the synthetic resource-location entry for `menu_items--<menuName>`,
with href `<configured endpoint>/menu_items/<menuName>`, into the Resource
Client resource index, overwriting any entry already present for that
resource type. -/
theorem c2_synthetic_index_entry_always_written (b : Backend) (menuName : String) :
    (getJsonApiMenuItems b menuName).index ("menu_items--" ++ menuName)
      = some (b.endpoint ++ "/menu_items/" ++ menuName) := by
  simp [getJsonApiMenuItems]

/-- C3: for every configuration (hence every configured strategy), every
entity returned by `get(menuName)` has `attributes.menu_name` equal to the
requested menu name, provided the Resource Client honors the `menu_name`
filter of the query the default strategy builds (that strategy returns raw
records as-is and the spec assigns filter correctness to the client). -/
theorem c3_menu_name_equals_requested (cfg : Config) (b : Backend) (menuName : String)
    (hclient : ∀ page ∈ b.getCollectionAllMLC mlcResource (mlcQuery menuName),
        ∀ e ∈ page.data, e.attributes.menu_name = menuName) :
    ∀ n ∈ (get cfg b menuName).menuNames, n = menuName := by
  intro n hn
  unfold get at hn
  split_ifs at hn
  · simp only [GetResult.menuNames, List.mem_map] at hn
    obtain ⟨e, he, rfl⟩ := hn
    exact menu_name_of_getDecoupledMenu b.axiosGet menuName e he
  · simp only [GetResult.menuNames, List.mem_map] at hn
    obtain ⟨e, he, rfl⟩ := hn
    exact menu_name_of_getJsonApiMenuItems b menuName e he
  · simp only [GetResult.menuNames, List.mem_map] at hn
    obtain ⟨e, he, rfl⟩ := hn
    exact menu_name_of_getMenuLinkContent b.getCollectionAllMLC menuName hclient e he

/-- C3 witness: a client whose one `menu_link_content` page holds a record
of the `main` menu honors the filter, and every name in the `get` result is
`main`. -/
theorem c3_menu_name_equals_requested_witness :
    (∀ page ∈ exampleBackend.getCollectionAllMLC mlcResource (mlcQuery "main"),
        ∀ e ∈ page.data, e.attributes.menu_name = "main")
    ∧ ∀ n ∈ (get { menu := { type := some "menu_link_content" } }
          exampleBackend "main").menuNames, n = "main" :=
  ⟨by decide,
   c3_menu_name_equals_requested { menu := { type := some "menu_link_content" } }
     exampleBackend "main" (by decide)⟩

/-- C4: the `jsonapi_menu_items` strategy returns exactly the normalization
of every fetched raw record, and the normalization prefixes the raw `url`
with the `internal:` scheme (so the uri always extends `internal:`), maps an
empty raw `parent` to `null` and keeps a non-empty one unchanged, takes
`menu_name` from the requested menu name, copies `title` and `weight`
verbatim, and retains the raw record under `resource`. -/
theorem c4_jsonapi_normalization (b : Backend) (menuName : String) :
    ((getJsonApiMenuItems b menuName).entities
      = ((b.getCollectionAllMenuItems ("menu_items--" ++ menuName)
            (jsonApiQuery menuName)).map (fun c => c.data)).flatten.map
          (normalizeMenuItem menuName))
    ∧ ∀ raw : RawMenuItem,
        (normalizeMenuItem menuName raw).attributes.link.uri
            = "internal:" ++ raw.attributes.url
        ∧ (∃ rest, (normalizeMenuItem menuName raw).attributes.link.uri
            = "internal:" ++ rest)
        ∧ (normalizeMenuItem menuName raw).attributes.parent
            = (if raw.attributes.parent = "" then none else some raw.attributes.parent)
        ∧ (normalizeMenuItem menuName raw).attributes.menu_name = menuName
        ∧ (normalizeMenuItem menuName raw).attributes.title = raw.attributes.title
        ∧ (normalizeMenuItem menuName raw).attributes.weight = raw.attributes.weight
        ∧ (normalizeMenuItem menuName raw).resource = raw := by
  refine ⟨rfl, fun raw => ⟨rfl, ⟨raw.attributes.url, rfl⟩, ?_, rfl, rfl, rfl, rfl⟩⟩
  by_cases hp : raw.attributes.parent = ""
  · simp [normalizeMenuItem, hp]
  · have hlen : raw.attributes.parent.length ≠ 0 :=
      fun h0 => hp (eq_empty_of_length_eq_zero h0)
    simp [normalizeMenuItem, hp, hlen]

/-- C5: the default strategy builds its query from exactly the filter
`enabled = '1'` (the serialized boolean true), the filter `menu_name =
<requested name>` and the restriction of the `menu_link_content` resource to
the seven listed fields, and returns the concatenation, in backend order, of
every fetched page's raw records unchanged. -/
theorem c5_menu_link_content_query_and_result (b : Backend) (menuName : String) :
    mlcQuery menuName
      = [QueryOp.filter "enabled" "1",
         QueryOp.filter "menu_name" menuName,
         QueryOp.fields "menu_link_content--menu_link_content"
           ["bundle", "description", "link", "menu_name", "parent", "title", "weight"]]
    ∧ (getMenuLinkContent b.getCollectionAllMLC menuName).entities
        = ((b.getCollectionAllMLC mlcResource (mlcQuery menuName)).map
            (fun c => c.data)).flatten := by
  exact ⟨rfl, rfl⟩

/-- C6: constructing with a missing or empty `baseUrl` throws the
configuration error synchronously (the embedded constructor consults no
backend at all, so no network activity is possible before the throw), and
construction succeeds for every non-empty `baseUrl`. -/
theorem c6_missing_baseUrl_throws (options : Options) :
    construct none options = Except.error ConfigurationError.missingBaseUrl
    ∧ construct (some "") options = Except.error ConfigurationError.missingBaseUrl
    ∧ ∀ s : String, s ≠ "" → ∃ r, construct (some s) options = Except.ok r := by
  refine ⟨rfl, rfl, fun s hs => ?_⟩
  have hok : construct (some s) options
      = Except.ok (match options.menu with
          | some m =>
              if m.jsonApiMenuItems then
                ({ options with menu := some { m with type := some "jsonapi_menu_items" } },
                 ({ menu := { type := some "jsonapi_menu_items" } } : Config))
              else (options, { menu := { type := m.type } })
          | none => (options, { menu := { type := some "menu_link_content" } })) := by
    unfold construct
    rw [if_neg (by simp [hs])]
    rcases options with ⟨_ | m⟩
    · rfl
    · by_cases hm : m.jsonApiMenuItems <;> simp [hm]
  exact ⟨_, hok⟩

/-- C6 witness: at the concrete non-empty base URL the constructor
succeeds, and at a missing one it throws. -/
theorem c6_missing_baseUrl_throws_witness :
    construct none { menu := none } = Except.error ConfigurationError.missingBaseUrl
    ∧ ("https://example.com" : String) ≠ ""
    ∧ ∃ r, construct (some "https://example.com") { menu := none } = Except.ok r :=
  ⟨(c6_missing_baseUrl_throws { menu := none }).1, by decide,
   (c6_missing_baseUrl_throws { menu := none }).2.2 "https://example.com" (by decide)⟩

/-- C7: for every base URL, every original `menu.type` value, every backend
and every menu name, constructing with the legacy flag
`menu.jsonApiMenuItems = true` yields the same `get(menuName)` retrieval
behavior as constructing with `menu.type = 'jsonapi_menu_items'`. -/
theorem c7_legacy_flag_equivalence (baseUrl : Option String) (t : Option String)
    (b : Backend) (menuName : String) :
    (construct baseUrl { menu := some { type := t, jsonApiMenuItems := true } }).map
        (fun r => get r.2 b menuName)
      = (construct baseUrl
          { menu := some { type := some "jsonapi_menu_items",
                           jsonApiMenuItems := false } }).map
          (fun r => get r.2 b menuName) := by
  unfold construct
  split
  · rfl
  · rfl

/-- C8: whenever the configured `menu.type` is neither of the two
recognized alternate strategy names, `get` behaves exactly as the
`menu_link_content` strategy rather than throwing. -/
theorem c8_unknown_type_falls_back (cfg : Config) (b : Backend) (menuName : String)
    (h1 : cfg.menu.type ≠ some "decoupled_menus")
    (h2 : cfg.menu.type ≠ some "jsonapi_menu_items") :
    get cfg b menuName
      = GetResult.mlc (getMenuLinkContent b.getCollectionAllMLC menuName).entities := by
  unfold get
  rw [if_neg h1, if_neg h2]

/-- C8 witness: the unrecognized type `bogus` takes the default branch. -/
theorem c8_unknown_type_falls_back_witness :
    (some "bogus" ≠ some "decoupled_menus")
    ∧ (some "bogus" ≠ some "jsonapi_menu_items")
    ∧ get { menu := { type := some "bogus" } } exampleBackend "main"
        = GetResult.mlc
            (getMenuLinkContent exampleBackend.getCollectionAllMLC "main").entities :=
  ⟨by decide, by decide,
   c8_unknown_type_falls_back { menu := { type := some "bogus" } } exampleBackend "main"
     (by decide) (by decide)⟩

/-- C9: when the transport response carries no data object, or a data
object without a linkset array, `getDecoupledMenu` returns `{ entities: [] }`
rather than raising an error. -/
theorem c9_missing_linkset_yields_empty (axiosGet : String → AxiosResponse)
    (menuName : String)
    (h : (axiosGet ("/system/menu/" ++ menuName ++ "/linkset")).data = none
      ∨ ∃ d, (axiosGet ("/system/menu/" ++ menuName ++ "/linkset")).data = some d
          ∧ d.linkset = none) :
    getDecoupledMenu axiosGet menuName = { entities := [] } := by
  rcases h with h | ⟨d, hd, hl⟩
  · simp [getDecoupledMenu, h]
  · simp [getDecoupledMenu, hd, hl]

/-- C9 witness: a transport returning no data object yields an empty entity
list. -/
theorem c9_missing_linkset_yields_empty_witness :
    ((fun _ : String => ({ data := none } : AxiosResponse))
        "/system/menu/main/linkset").data = none
    ∧ getDecoupledMenu (fun _ : String => ({ data := none } : AxiosResponse)) "main"
        = { entities := [] } :=
  ⟨rfl, c9_missing_linkset_yields_empty _ "main" (Or.inl rfl)⟩

/-- C10: when the caller's options carry a truthy `menu.jsonApiMenuItems`,
the constructor mutates the caller-owned options object in place (modelled
by the options component of the result): the returned caller options have
`menu.type` set to `jsonapi_menu_items`, so whenever the original `menu.type`
differed, the caller's options object is observably changed. -/
theorem c10_caller_options_mutated (baseUrl : String) (hb : baseUrl ≠ "")
    (m : MenuOptions) (hm : m.jsonApiMenuItems = true) :
    construct (some baseUrl) { menu := some m }
      = Except.ok ({ menu := some { m with type := some "jsonapi_menu_items" } },
                   { menu := { type := some "jsonapi_menu_items" } })
    ∧ (m.type ≠ some "jsonapi_menu_items" →
        ({ menu := some { m with type := some "jsonapi_menu_items" } } : Options)
          ≠ { menu := some m }) := by
  constructor
  · unfold construct
    rw [if_neg (by simp [hb])]
    simp [hm]
  · intro hne heq
    apply hne
    have h1 := congrArg Options.menu heq
    simp only [Option.some.injEq] at h1
    exact (congrArg MenuOptions.type h1).symm

/-- C10 witness: with the legacy flag set and no `type` key, the returned
caller options carry `menu.type = 'jsonapi_menu_items'` and differ from the
options passed in. -/
theorem c10_caller_options_mutated_witness :
    construct (some "https://example.com")
        { menu := some { type := none, jsonApiMenuItems := true } }
      = Except.ok
          ({ menu := some { type := some "jsonapi_menu_items",
                            jsonApiMenuItems := true } },
           { menu := { type := some "jsonapi_menu_items" } })
    ∧ ({ menu := some { type := some "jsonapi_menu_items",
                        jsonApiMenuItems := true } } : Options)
        ≠ { menu := some { type := none, jsonApiMenuItems := true } } := by
  have h := c10_caller_options_mutated "https://example.com" (by decide)
    { type := none, jsonApiMenuItems := true } rfl
  exact ⟨h.1, h.2 (by decide)⟩

end DruxtMenu
